import Mathlib

/-!
A shallow embedding of the game-store server (`game_store_server.py`) of the
repository under verification, together with theorems settling the frozen
claims about it.

Modelling conventions:
- Python dicts become association lists (`List (κ × α)`) with first-match
  lookup, in-place replacement and insertion-order append, mirroring dict
  semantics.
- JSON string fields become `String`; a missing or empty (falsy) string is
  modelled as `""` where the source tests truthiness.
- The uploaded game bundle (a zip archive carried as base64 on the wire) is
  modelled structurally: an archive is a list of entries, each carrying the
  entry name, its recorded modification time, its compression method
  (0 = stored, 8 = deflated) and the uncompressed file contents.  The byte
  stream of an archive is produced by `serializeZip`.  Extraction
  (`zipfile.ZipFile.extractall` followed by deleting the zip, as the server
  does) keeps only names and contents; repacking for download
  (`zipfile.ZipFile(..., ZIP_DEFLATED)` over `os.walk`) stamps every entry
  with the pack-time and the deflate method.
- Machine floats used for the review averages become `ℚ`; Python `round`
  (banker's rounding) becomes `roundTo`.
-/

/-! ## Association-list dictionaries (Python `dict` semantics) -/

def dictGet {κ α : Type} [DecidableEq κ] (d : List (κ × α)) (k : κ) : Option α :=
  match d with
  | [] => none
  | (k2, v) :: t => if k2 = k then some v else dictGet t k

def dictHas {κ α : Type} [DecidableEq κ] (d : List (κ × α)) (k : κ) : Bool :=
  (dictGet d k).isSome

/-- Python `d[k] = v`: replace in place when the key exists, else append. -/
def dictSet {κ α : Type} [DecidableEq κ] (d : List (κ × α)) (k : κ) (v : α) :
    List (κ × α) :=
  match d with
  | [] => [(k, v)]
  | (k2, v2) :: t => if k2 = k then (k, v) :: t else (k2, v2) :: dictSet t k v

/-- Python `del d[k]` (keys are unique in a dict, so dropping the first
occurrence is exact). -/
def dictDel {κ α : Type} [DecidableEq κ] (d : List (κ × α)) (k : κ) :
    List (κ × α) :=
  match d with
  | [] => []
  | (k2, v2) :: t => if k2 = k then t else (k2, v2) :: dictDel t k

def keysNodup {κ α : Type} (d : List (κ × α)) : Prop :=
  (d.map Prod.fst).Nodup

/-- Python `str.strip()`: drop ASCII whitespace from both ends. -/
def pyStrip (s : String) : String :=
  ⟨((s.toList.dropWhile Char.isWhitespace).reverse.dropWhile
      Char.isWhitespace).reverse⟩

/-! ## Substring test (Python `sub in s`) -/

def hasSubAt : List Char → List Char → Bool
  | [], _ => true
  | _ :: _, [] => false
  | p :: ps, c :: cs => p == c && hasSubAt ps cs

def hasSub (pat : List Char) : List Char → Bool
  | [] => hasSubAt pat []
  | c :: cs => hasSubAt pat (c :: cs) || hasSub pat cs

def strHasSub (hay pat : String) : Bool := hasSub pat.toList hay.toList

/-! ## Zip archives -/

structure ZipEntry where
  name : String
  dosTime : Nat
  method : Nat
  data : List Nat
deriving DecidableEq

/-- What survives `extractall` + deleting the zip: names and contents. -/
def extractFiles (a : List ZipEntry) : List (String × List Nat) :=
  a.map (fun e => (e.name, e.data))

/-- Repacking for download: `zipfile.ZipFile(buffer, "w", ZIP_DEFLATED)` over
`os.walk`, which stamps each entry with the on-disk (extraction-time)
modification time and compression method 8. -/
def packZip (files : List (String × List Nat)) (now : Nat) : List ZipEntry :=
  files.map (fun f => { name := f.1, dosTime := now, method := 8, data := f.2 })

def serializeEntry (e : ZipEntry) : List Nat :=
  e.name.length :: (e.name.toList.map Char.toNat) ++
    e.dosTime :: e.method :: e.data.length :: e.data

/-- The byte stream of an archive. -/
def serializeZip (a : List ZipEntry) : List Nat :=
  a.length :: (a.map serializeEntry).flatten

/-! ## Catalog data model -/

structure GameConfig where
  startCommand : String := ""
  serverCommand : Option String := none
deriving DecidableEq

structure GameMeta where
  developer : String
  gameType : String
  description : String
  maxPlayers : Nat
  version : String
  createdAt : Nat
  updatedAt : Nat
  status : String
  config : GameConfig
  downloadCount : Nat
  averageRating : ℚ
  reviewCount : Nat
  updateNotes : String := ""
deriving DecidableEq

structure Review where
  player : String
  rating : Int
  comment : String
  timestamp : String
deriving DecidableEq

/-- The review record `handle_submit_review` builds. -/
def mkReview (p : String) (r : Int) (c t : String) : Review :=
  { player := p, rating := r, comment := c, timestamp := t }

structure Room where
  roomId : String
  gameName : String
  version : String
  host : String
  players : List String
  readyPlayers : List String
  maxPlayers : Nat
  status : String
  createdAt : Nat
  gameServerPort : Option Nat := none
  gameServerPid : Option Nat := none
deriving DecidableEq

/-- The server's shared mutable state: `games_metadata.json`, the extracted
bundle directories under `uploaded_games/<name>/<version>/`, `reviews.json`,
`players.json`, the rooms map and the online-players map. -/
structure StoreState where
  games : List (String × GameMeta) := []
  bundles : List ((String × String) × List (String × List Nat)) := []
  reviews : List (String × List Review) := []
  players : List (String × List String) := []
  rooms : List (String × Room) := []
  onlinePlayers : List (String × Nat) := []
deriving DecidableEq

/-! ## Banker's rounding (Python `round(x, n)`) on ℚ -/

def roundHalfEven (q : ℚ) : Int :=
  let f := ⌊q⌋
  let r := q - (f : ℚ)
  if r < 1 / 2 then f
  else if 1 / 2 < r then f + 1
  else if f % 2 = 0 then f else f + 1

def roundTo (n : Nat) (q : ℚ) : ℚ :=
  (roundHalfEven (q * (10 : ℚ) ^ n) : ℚ) / (10 : ℚ) ^ n

/-- Mean rating of a review list (`sum(...) / len(...)`, `0` when empty). -/
def meanRating (rs : List Review) : ℚ :=
  if rs.length = 0 then 0 else ((rs.map Review.rating).sum : ℚ) / (rs.length : ℚ)

/-! ## Developer endpoint: upload_game -/

structure UploadReq where
  gameName : String
  gameType : String
  description : String := ""
  maxPlayers : Nat := 2
  version : String := "1.0.0"
  gameFiles : Option (List ZipEntry) := none
  config : GameConfig := {}
deriving DecidableEq

inductive UploadResult where
  | missingFields
  | startCommandRequired
  | startCommandNoPlaceholders
  | alreadyExists
  | ok (gameName version : String)
deriving DecidableEq

/-- `handle_upload_game`: required-field check, `start_command` presence and
placeholder checks, uniqueness check, then store the extracted bundle under
`(name, version)` and the new metadata entry with zeroed counters. -/
def uploadGame (st : StoreState) (dev : String) (req : UploadReq) (now : Nat) :
    StoreState × UploadResult :=
  if req.gameName = "" ∨ req.gameType = "" ∨ req.gameFiles = none then
    (st, .missingFields)
  else
    let sc := pyStrip req.config.startCommand
    if sc = "" then (st, .startCommandRequired)
    else if strHasSub sc "{host}" = false ∨ strHasSub sc "{port}" = false then
      (st, .startCommandNoPlaceholders)
    else if dictHas st.games req.gameName then (st, .alreadyExists)
    else
      let archive := req.gameFiles.getD []
      let meta : GameMeta :=
        { developer := dev
          gameType := req.gameType
          description := req.description
          maxPlayers := req.maxPlayers
          version := req.version
          createdAt := now
          updatedAt := now
          status := "active"
          config := req.config
          downloadCount := 0
          averageRating := 0
          reviewCount := 0 }
      ({ st with
          bundles := dictSet st.bundles (req.gameName, req.version) (extractFiles archive)
          games := dictSet st.games req.gameName meta },
       .ok req.gameName req.version)

/-! ## Room cascade shared by update_game and remove_game -/

def roomsForGame (rooms : List (String × Room)) (g : String) : List (String × Room) :=
  rooms.filter (fun rr => rr.2.gameName = g)

def dropRoomsForGame (rooms : List (String × Room)) (g : String) : List (String × Room) :=
  rooms.filter (fun rr => rr.2.gameName ≠ g)

/-- Pids that `os.killpg` is issued for during a cascade (rooms whose
`game_server_pid` holds an actual pid; a `None` pid raises inside the `try`
and is swallowed). -/
def pidsOf (rs : List (String × Room)) : List Nat :=
  rs.filterMap (fun rr => rr.2.gameServerPid)

/-! ## Developer endpoint: update_game -/

structure UpdateReq where
  gameName : String
  version : String
  gameFiles : Option (List ZipEntry) := none
  updateNotes : String := ""
deriving DecidableEq

inductive UpdateResult where
  | missingFields
  | notFound
  | inactive
  | permissionDenied
  | ok (gameName newVersion : String) (removedRooms : List (String × Room))
      (killedPids : List Nat)
deriving DecidableEq

/-- `handle_update_game`: guards, then store the new bundle, bump
`version`/`updated_at`/`update_notes`, and (outside the games lock) destroy
every room running this game, killing its game-server process group. -/
def updateGame (st : StoreState) (dev : String) (req : UpdateReq) (now : Nat) :
    StoreState × UpdateResult :=
  if req.gameName = "" ∨ req.version = "" ∨ req.gameFiles = none then
    (st, .missingFields)
  else
    match dictGet st.games req.gameName with
    | none => (st, .notFound)
    | some g =>
      if g.status ≠ "active" then (st, .inactive)
      else if g.developer ≠ dev then (st, .permissionDenied)
      else
        let archive := req.gameFiles.getD []
        let g2 := { g with
          version := req.version
          updatedAt := now
          updateNotes := req.updateNotes }
        let removed := roomsForGame st.rooms req.gameName
        ({ st with
            bundles := dictSet st.bundles (req.gameName, req.version) (extractFiles archive)
            games := dictSet st.games req.gameName g2
            rooms := dropRoomsForGame st.rooms req.gameName },
         .ok req.gameName req.version removed (pidsOf removed))

/-! ## Developer endpoint: remove_game -/

inductive RemoveResult where
  | missingName
  | notFound
  | permissionDenied
  | ok (gameName : String) (removedRooms : List (String × Room))
      (killedPids : List Nat)
deriving DecidableEq

/-- `handle_remove_game`: guards, delete the metadata entry and every bundle
directory of the game, then destroy every room running it (killing owned
game-server processes).  Reviews are left untouched. -/
def removeGame (st : StoreState) (dev : String) (gameName : String) :
    StoreState × RemoveResult :=
  if gameName = "" then (st, .missingName)
  else
    match dictGet st.games gameName with
    | none => (st, .notFound)
    | some g =>
      if g.developer ≠ dev then (st, .permissionDenied)
      else
        let removed := roomsForGame st.rooms gameName
        ({ st with
            games := dictDel st.games gameName
            bundles := st.bundles.filter (fun b => b.1.1 ≠ gameName)
            rooms := dropRoomsForGame st.rooms gameName },
         .ok gameName removed (pidsOf removed))

/-! ## Player endpoint: download_game -/

inductive DownloadResult where
  | missingName
  | notFound
  | notAvailable
  | filesNotFound
  | ok (archive : List ZipEntry) (config : GameConfig) (version : String)
deriving DecidableEq

/-- `handle_download_game`: guards, then re-zip the extracted files of the
current version with `ZIP_DEFLATED` (stamping pack-time `now`), bump
`download_count`, and append the game to the player's download history
(creating the record when absent, deduplicating). -/
def downloadGame (st : StoreState) (player gameName : String) (now : Nat) :
    StoreState × DownloadResult :=
  if gameName = "" then (st, .missingName)
  else
    match dictGet st.games gameName with
    | none => (st, .notFound)
    | some g =>
      if g.status ≠ "active" then (st, .notAvailable)
      else
        match dictGet st.bundles (gameName, g.version) with
        | none => (st, .filesNotFound)
        | some files =>
          let g2 := { g with downloadCount := g.downloadCount + 1 }
          let hist := (dictGet st.players player).getD []
          let hist2 := if gameName ∈ hist then hist else hist ++ [gameName]
          ({ st with
              games := dictSet st.games gameName g2
              players := dictSet st.players player hist2 },
           .ok (packZip files now) g.config g.version)

/-! ## Reviews: submit_review and get_reviews -/

/-- The upsert at the heart of `handle_submit_review`: replace the first
review by the same player in place, else append. -/
def upsertReview : List Review → Review → List Review
  | [], nr => [nr]
  | r :: rs, nr =>
    if r.player = nr.player then nr :: rs else r :: upsertReview rs nr

inductive ReviewResult where
  | missingFields
  | ratingOutOfRange
  | gameNotFound
  | inactiveGame
  | playerNotFound
  | notDownloaded
  | okSubmitted
  | okUpdated
deriving DecidableEq

/-- `handle_submit_review`: guards (rating range, game exists and active,
player exists and has downloaded the game), then upsert the review keyed by
player into `reviews[game]` and recompute the game's `average_rating`
(rounded to 2 decimal places) and `review_count` in the metadata. -/
def submitReviewRated (st : StoreState) (player gameName : String)
    (rt : Int) (comment timestamp : String) :
    StoreState × ReviewResult :=
    if gameName = "" then (st, .missingFields)
    else if ¬ (1 ≤ rt ∧ rt ≤ 5) then (st, .ratingOutOfRange)
    else
      match dictGet st.games gameName with
      | none => (st, .gameNotFound)
      | some g =>
        if g.status ≠ "active" then (st, .inactiveGame)
        else
          match dictGet st.players player with
          | none => (st, .playerNotFound)
          | some hist =>
            if gameName ∉ hist then (st, .notDownloaded)
            else
              let old := (dictGet st.reviews gameName).getD []
              let isUpdate := old.any (fun r => r.player == player)
              let newList := upsertReview old
                { player := player, rating := rt, comment := comment,
                  timestamp := timestamp }
              let g2 := { g with
                averageRating := roundTo 2 (meanRating newList)
                reviewCount := newList.length }
              ({ st with
                  reviews := dictSet st.reviews gameName newList
                  games := dictSet st.games gameName g2 },
               if isUpdate then .okUpdated else .okSubmitted)

/-- `handle_submit_review` top level: a missing rating is a missing field;
otherwise proceed with the rated path. -/
def submitReview (st : StoreState) (player gameName : String)
    (rating : Option Int) (comment timestamp : String) :
    StoreState × ReviewResult :=
  match rating with
  | none => (st, .missingFields)
  | some rt => submitReviewRated st player gameName rt comment timestamp

inductive GetReviewsResult where
  | missingName
  | ok (reviews : List Review) (totalReviews : Nat) (averageRating : ℚ)
deriving DecidableEq

/-- `handle_get_reviews`: no existence check on the game; returns the review
list, its length and the mean rating rounded to **1** decimal place. -/
def getReviews (st : StoreState) (gameName : String) : GetReviewsResult :=
  if gameName = "" then .missingName
  else
    let rs := (dictGet st.reviews gameName).getD []
    .ok rs rs.length (roundTo 1 (meanRating rs))

/-! ## Rooms: join_room and leave_room -/

inductive JoinResult where
  | missingRoomId
  | notFound
  | notWaiting
  | alreadyIn
  | full
  | versionMismatch
  | ok (players : List String)
deriving DecidableEq

/-- `handle_join_room`: guards in source order (missing id, not found, not
waiting, already in, full, version mismatch — the version check is skipped
when the client sends a falsy version), then append the player. -/
def joinRoom (rooms : List (String × Room)) (roomId player version : String) :
    List (String × Room) × JoinResult :=
  if roomId = "" then (rooms, .missingRoomId)
  else
    match dictGet rooms roomId with
    | none => (rooms, .notFound)
    | some room =>
      if room.status ≠ "waiting" then (rooms, .notWaiting)
      else if player ∈ room.players then (rooms, .alreadyIn)
      else if room.maxPlayers ≤ room.players.length then (rooms, .full)
      else if version ≠ "" ∧ version ≠ room.version then (rooms, .versionMismatch)
      else
        let room2 := { room with players := room.players ++ [player] }
        (dictSet rooms roomId room2, .ok room2.players)

inductive LeaveResult where
  | missingRoomId
  | notFound
  | notInRoom
  | disbandedHost (remainingPlayers : List String) (killedPids : List Nat)
  | deletedEmpty
  | left (remainingPlayers : Nat)
deriving DecidableEq

/-- `handle_leave_room`: remove the player; if the leaver is the host, stop
any game-server process and delete the room (disband); else if the member
list became empty, delete the room; else keep it. -/
def leaveRoom (rooms : List (String × Room)) (roomId player : String) :
    List (String × Room) × LeaveResult :=
  if roomId = "" then (rooms, .missingRoomId)
  else
    match dictGet rooms roomId with
    | none => (rooms, .notFound)
    | some room =>
      if player ∉ room.players then (rooms, .notInRoom)
      else
        let remaining := room.players.erase player
        if player = room.host then
          (dictDel rooms roomId,
           .disbandedHost remaining room.gameServerPid.toList)
        else if remaining = [] then
          (dictDel rooms roomId, .deletedEmpty)
        else
          (dictSet rooms roomId { room with players := remaining },
           .left remaining.length)

/-! ## Presence: login and disconnect cleanup -/

inductive LoginResult where
  | alreadyOnline
  | ok
deriving DecidableEq

/-- The presence part of the lobby `login` action (after the credential
check succeeded): reject when the name is already online, else record the
connection. -/
def presenceLogin (onl : List (String × Nat)) (user : String) (conn : Nat) :
    List (String × Nat) × LoginResult :=
  if dictHas onl user then (onl, .alreadyOnline)
  else (onl ++ [(user, conn)], .ok)

/-- The room scan in the lobby disconnect cleanup: the first room whose
member list contains the player. -/
def findPlayerRoom (rooms : List (String × Room)) (player : String) :
    Option String :=
  (rooms.find? (fun rr => rr.2.players.contains player)).map (fun rr => rr.1)

/-- The `finally` block of `handle_lobby_client` for a logged-in player:
auto-leave the room the player is found in (if any), then delete the
presence entry. -/
def disconnectCleanup (rooms : List (String × Room))
    (onl : List (String × Nat)) (player : String) :
    List (String × Room) × List (String × Nat) :=
  let rooms2 :=
    match findPlayerRoom rooms player with
    | some rid => (leaveRoom rooms rid player).1
    | none => rooms
  (rooms2, dictDel onl player)

/-! ## Lobby request routing -/

inductive LobbyRoute where
  | listGames
  | getGameInfo
  | registerPlayer
  | loginPlayer
  | pleaseLoginFirst
  | downloadGameR
  | submitReviewR
  | createRoomR
  | listRoomsR
  | listOnlinePlayersR
  | getRoomStatusR
  | getReviewsR
  | joinRoomR
  | leaveRoomR
  | startGameR
  | playerReadyR
  | cancelReadyCheckR
  | resetRoomR
  | wrongPort
  | unknownAction
deriving DecidableEq

/-- The `elif` dispatch chain of `handle_lobby_client`: `list_games` and
`get_game_info` are served before any login check; `register` and `login`
are always reachable; every other action hits the `Please login first`
branch when no login has occurred on the connection. -/
def lobbyRoute (action : String) (loggedIn : Bool) : LobbyRoute :=
  if action = "list_games" then .listGames
  else if action = "get_game_info" then .getGameInfo
  else if action = "register" then .registerPlayer
  else if action = "login" then .loginPlayer
  else if loggedIn = false then .pleaseLoginFirst
  else if action = "download_game" then .downloadGameR
  else if action = "submit_review" then .submitReviewR
  else if action = "create_room" then .createRoomR
  else if action = "list_rooms" then .listRoomsR
  else if action = "list_online_players" then .listOnlinePlayersR
  else if action = "get_room_status" then .getRoomStatusR
  else if action = "get_reviews" then .getReviewsR
  else if action = "join_room" then .joinRoomR
  else if action = "leave_room" then .leaveRoomR
  else if action = "start_game" then .startGameR
  else if action = "player_ready" then .playerReadyR
  else if action = "cancel_ready_check" then .cancelReadyCheckR
  else if action = "reset_room" then .resetRoomR
  else if action = "upload_game" ∨ action = "update_game" ∨
          action = "remove_game" ∨ action = "list_my_games" then .wrongPort
  else .unknownAction

/-! ## The developer client's version-format validation

The N.N.N check lives in `developer_client.py` (upload and update input
loops): `parts = version.split(".")` then
`len(parts) == 3 and all(p.isdigit() for p in parts)`. -/

/-- Python `str.split(".")` on a character list: first segment plus the
remaining segments. -/
def splitDot : List Char → List Char × List (List Char)
  | [] => ([], [])
  | c :: cs =>
    let p := splitDot cs
    if c = '.' then ([], p.1 :: p.2) else (c :: p.1, p.2)

def versionParts (v : String) : List (List Char) :=
  (splitDot v.toList).1 :: (splitDot v.toList).2

/-- The developer client's version check (`version.split(".")` yields exactly
three parts, each nonempty and all digits — `"".isdigit()` is `False`). -/
def clientVersionOk (v : String) : Bool :=
  (versionParts v).length == 3 &&
    (versionParts v).all (fun p => !p.isEmpty && p.all Char.isDigit)

/-- The spec's wording: three dot-separated nonnegative integers. -/
def isNNN (v : String) : Prop :=
  ∃ a b c : List Char,
    a ≠ [] ∧ b ≠ [] ∧ c ≠ [] ∧
    a.all Char.isDigit = true ∧ b.all Char.isDigit = true ∧
    c.all Char.isDigit = true ∧
    v.toList = a ++ '.' :: b ++ '.' :: c

/-! ## A concrete reachable scenario

One game `g` is uploaded, three players download it and each submits a
review (ratings 1, 1, 2), reaching a catalog state whose review list for
`g` has mean rating 4/3. -/

def c3Req : UploadReq :=
  { gameName := "g", gameType := "CLI", gameFiles := some [],
    config := { startCommand := "py x {host} {port}" } }

def c3State : StoreState :=
  (submitReview (submitReview (submitReview
    (downloadGame (downloadGame (downloadGame
      (uploadGame {} "dev" c3Req 0).1
      "p1" "g" 0).1 "p2" "g" 0).1 "p3" "g" 0).1
    "p1" "g" (some 1) "" "t").1
    "p2" "g" (some 1) "" "t").1
    "p3" "g" (some 2) "" "t").1

def c3Reviews : List Review :=
  [mkReview "p1" 1 "" "t", mkReview "p2" 1 "" "t", mkReview "p3" 2 "" "t"]

/-! ## A concrete two-room scenario

Neither `create_room` nor `join_room` checks membership in other rooms, so
one player can be in two rooms at once: here `bob` joins a room hosted by
`alice` and then one hosted by `carol`. -/

def c7RoomA : Room :=
  { roomId := "ROOM_0001", gameName := "tic", version := "1.0.0",
    host := "alice", players := ["alice"], readyPlayers := [],
    maxPlayers := 2, status := "waiting", createdAt := 0 }

def c7RoomC : Room :=
  { roomId := "ROOM_0002", gameName := "tic", version := "1.0.0",
    host := "carol", players := ["carol"], readyPlayers := [],
    maxPlayers := 2, status := "waiting", createdAt := 0 }

def c7Rooms : List (String × Room) :=
  (joinRoom (joinRoom [("ROOM_0001", c7RoomA), ("ROOM_0002", c7RoomC)]
    "ROOM_0001" "bob" "1.0.0").1 "ROOM_0002" "bob" "1.0.0").1

/-! ## Dictionary lemmas -/

theorem dictGet_dictSet_self {κ α : Type} [DecidableEq κ]
    (d : List (κ × α)) (k : κ) (v : α) :
    dictGet (dictSet d k v) k = some v := by
  induction d with
  | nil => simp [dictSet, dictGet]
  | cons h t ih =>
    obtain ⟨k2, v2⟩ := h
    by_cases hk : k2 = k
    · simp [dictSet, hk, dictGet]
    · simp [dictSet, hk, dictGet, ih]

theorem dictGet_dictSet_ne {κ α : Type} [DecidableEq κ]
    (d : List (κ × α)) {k k2 : κ} (v : α) (h : k ≠ k2) :
    dictGet (dictSet d k v) k2 = dictGet d k2 := by
  induction d with
  | nil => simp [dictSet, dictGet, h]
  | cons hd t ih =>
    obtain ⟨k3, v3⟩ := hd
    by_cases hk : k3 = k
    · subst hk
      simp [dictSet, dictGet, h]
    · simp [dictSet, hk, dictGet, ih]

theorem mem_dictSet {κ α : Type} [DecidableEq κ]
    {d : List (κ × α)} {k : κ} {v : α} {x : κ × α}
    (hx : x ∈ dictSet d k v) : x = (k, v) ∨ x ∈ d := by
  induction d with
  | nil => simpa [dictSet] using hx
  | cons h t ih =>
    obtain ⟨k2, v2⟩ := h
    by_cases hk : k2 = k
    · simp only [dictSet, if_pos hk, List.mem_cons] at hx
      rcases hx with hx | hx
      · exact Or.inl hx
      · exact Or.inr (List.mem_cons_of_mem _ hx)
    · simp only [dictSet, if_neg hk, List.mem_cons] at hx
      rcases hx with hx | hx
      · exact Or.inr (by simp [hx])
      · rcases ih hx with h1 | h1
        · exact Or.inl h1
        · exact Or.inr (List.mem_cons_of_mem _ h1)

theorem mem_dictDel {κ α : Type} [DecidableEq κ]
    {d : List (κ × α)} {k : κ} {x : κ × α}
    (hx : x ∈ dictDel d k) : x ∈ d := by
  induction d with
  | nil => simp [dictDel] at hx
  | cons h t ih =>
    obtain ⟨k2, v2⟩ := h
    by_cases hk : k2 = k
    · simp only [dictDel, if_pos hk] at hx
      exact List.mem_cons_of_mem _ hx
    · simp only [dictDel, if_neg hk, List.mem_cons] at hx
      rcases hx with hx | hx
      · simp [hx]
      · exact List.mem_cons_of_mem _ (ih hx)

theorem dictGet_mem {κ α : Type} [DecidableEq κ]
    {d : List (κ × α)} {k : κ} {v : α}
    (h : dictGet d k = some v) : (k, v) ∈ d := by
  induction d with
  | nil => simp [dictGet] at h
  | cons hd t ih =>
    obtain ⟨k2, v2⟩ := hd
    by_cases hk : k2 = k
    · subst hk
      simp [dictGet] at h
      simp [h]
    · simp only [dictGet, if_neg hk] at h
      exact List.mem_cons_of_mem _ (ih h)

theorem dictGet_eq_none_of_not_mem_keys {κ α : Type} [DecidableEq κ]
    {d : List (κ × α)} {k : κ} (h : k ∉ d.map Prod.fst) :
    dictGet d k = none := by
  induction d with
  | nil => rfl
  | cons hd t ih =>
    obtain ⟨k2, v2⟩ := hd
    simp only [List.map_cons, List.mem_cons] at h
    push_neg at h
    have hk : k2 ≠ k := fun he => h.1 he.symm
    simp [dictGet, hk, ih h.2]

theorem dictGet_dictDel_self {κ α : Type} [DecidableEq κ]
    {d : List (κ × α)} (hnd : keysNodup d) (k : κ) :
    dictGet (dictDel d k) k = none := by
  induction d with
  | nil => rfl
  | cons hd t ih =>
    obtain ⟨k2, v2⟩ := hd
    simp only [keysNodup, List.map_cons, List.nodup_cons] at hnd
    by_cases hk : k2 = k
    · subst hk
      simp only [dictDel, if_pos rfl]
      exact dictGet_eq_none_of_not_mem_keys hnd.1
    · simp [dictDel, hk, dictGet, ih hnd.2]

/-! ## Upsert lemmas -/

theorem mem_upsert {rs : List Review} {r b : Review}
    (hb : b ∈ upsertReview rs r) : b = r ∨ b ∈ rs := by
  induction rs with
  | nil => simpa [upsertReview] using hb
  | cons r0 t ih =>
    by_cases hp : r0.player = r.player
    · simp only [upsertReview, if_pos hp, List.mem_cons] at hb
      rcases hb with hb | hb
      · exact Or.inl hb
      · exact Or.inr (List.mem_cons_of_mem _ hb)
    · simp only [upsertReview, if_neg hp, List.mem_cons] at hb
      rcases hb with hb | hb
      · exact Or.inr (by simp [hb])
      · rcases ih hb with h1 | h1
        · exact Or.inl h1
        · exact Or.inr (List.mem_cons_of_mem _ h1)

theorem self_mem_upsert (rs : List Review) (r : Review) :
    r ∈ upsertReview rs r := by
  induction rs with
  | nil => simp [upsertReview]
  | cons r0 t ih =>
    by_cases hp : r0.player = r.player
    · simp [upsertReview, hp]
    · simp only [upsertReview, if_neg hp, List.mem_cons]
      exact Or.inr ih

theorem upsert_pairwise {rs : List Review} {r : Review}
    (h : rs.Pairwise (fun a b => a.player ≠ b.player)) :
    (upsertReview rs r).Pairwise (fun a b => a.player ≠ b.player) := by
  induction rs with
  | nil => simp [upsertReview]
  | cons r0 t ih =>
    rcases List.pairwise_cons.mp h with ⟨h0, ht⟩
    by_cases hp : r0.player = r.player
    · simp only [upsertReview, if_pos hp]
      exact List.pairwise_cons.mpr ⟨fun b hb => hp ▸ h0 b hb, ht⟩
    · simp only [upsertReview, if_neg hp]
      refine List.pairwise_cons.mpr ⟨fun b hb => ?_, ih ht⟩
      rcases mem_upsert hb with hb | hb
      · exact hb ▸ hp
      · exact h0 b hb

theorem upsert_player_eq {rs : List Review} {r b : Review}
    (h : rs.Pairwise (fun a b => a.player ≠ b.player))
    (hb : b ∈ upsertReview rs r) (hp : b.player = r.player) : b = r := by
  induction rs with
  | nil => simp [upsertReview] at hb; exact hb
  | cons r0 t ih =>
    rcases List.pairwise_cons.mp h with ⟨h0, ht⟩
    by_cases hq : r0.player = r.player
    · simp only [upsertReview, if_pos hq, List.mem_cons] at hb
      rcases hb with hb | hb
      · exact hb
      · exact absurd (hp.trans hq.symm) (fun he => h0 b hb he.symm)
    · simp only [upsertReview, if_neg hq, List.mem_cons] at hb
      rcases hb with hb | hb
      · exact absurd (hb ▸ hp) hq
      · exact ih ht hb

theorem upsert_count_one {rs : List Review} (r : Review)
    (h : rs.Pairwise (fun a b => a.player ≠ b.player)) :
    (upsertReview rs r).countP (fun b => b.player == r.player) = 1 := by
  induction rs with
  | nil => simp [upsertReview]
  | cons r0 t ih =>
    rcases List.pairwise_cons.mp h with ⟨h0, ht⟩
    by_cases hp : r0.player = r.player
    · simp only [upsertReview, if_pos hp, List.countP_cons]
      have hz : t.countP (fun b => b.player == r.player) = 0 :=
        List.countP_eq_zero.mpr fun b hb => by
          simpa using fun he => (h0 b hb) (hp.trans he.symm)
      simp [hz]
    · simp only [upsertReview, if_neg hp, List.countP_cons]
      have : (r0.player == r.player) = false := by simpa using hp
      simp [this, ih ht]

theorem upsert_length_of_any {rs : List Review} {r : Review}
    (h : rs.any (fun b => b.player == r.player) = true) :
    (upsertReview rs r).length = rs.length := by
  induction rs with
  | nil => simp at h
  | cons r0 t ih =>
    by_cases hp : r0.player = r.player
    · simp [upsertReview, hp]
    · have : t.any (fun b => b.player == r.player) = true := by
        simpa [hp] using h
      simp [upsertReview, hp, ih this]

/-! ## Archive round-trip lemma -/

theorem extractFiles_packZip (fm : List (String × List Nat)) (now : Nat) :
    extractFiles (packZip fm now) = fm := by
  simp [extractFiles, packZip, Function.comp_def]

/-! ## splitDot lemmas -/

theorem splitDot_no_dot {l : List Char} (h : ∀ c ∈ l, c ≠ '.') :
    splitDot l = (l, []) := by
  induction l with
  | nil => rfl
  | cons c cs ih =>
    have hc : c ≠ '.' := h c (List.mem_cons_self c cs)
    simp [splitDot, hc, ih (fun x hx => h x (List.mem_cons_of_mem _ hx))]

theorem splitDot_append {a : List Char} (r : List Char)
    (h : ∀ c ∈ a, c ≠ '.') :
    splitDot (a ++ '.' :: r) = (a, (splitDot r).1 :: (splitDot r).2) := by
  induction a with
  | nil => simp [splitDot]
  | cons c cs ih =>
    have hc : c ≠ '.' := h c (List.mem_cons_self c cs)
    simp [splitDot, hc, ih (fun x hx => h x (List.mem_cons_of_mem _ hx))]

theorem splitDot_unsplit (l : List Char) :
    (splitDot l).1 ++ ((splitDot l).2.map (fun p => '.' :: p)).flatten = l := by
  induction l with
  | nil => rfl
  | cons c cs ih =>
    by_cases hc : c = '.'
    · subst hc
      simp only [splitDot, if_pos rfl]
      simpa using ih
    · simp only [splitDot, if_neg hc]
      simpa using ih

theorem ne_dot_of_isDigit {c : Char} (h : c.isDigit = true) : c ≠ '.' := by
  intro he
  subst he
  exact absurd h (by decide)

/-! ## Claim theorems -/

/-- Claim C8: `upload_game` rejects any upload whose config lacks a
`start_command`, or whose `start_command` does not contain both literal
placeholders `{host}` and `{port}`, with a config-invalid error; in that
case the state is returned unchanged, so no game entry is created and no
bundle is stored. -/
theorem upload_rejects_bad_start_command (st : StoreState) (dev : String)
    (req : UploadReq) (now : Nat)
    (hname : req.gameName ≠ "") (htype : req.gameType ≠ "")
    (hfiles : req.gameFiles ≠ none)
    (hbad : pyStrip req.config.startCommand = "" ∨
      strHasSub (pyStrip req.config.startCommand) "{host}" = false ∨
      strHasSub (pyStrip req.config.startCommand) "{port}" = false) :
    uploadGame st dev req now =
      (st, if pyStrip req.config.startCommand = ""
        then UploadResult.startCommandRequired
        else UploadResult.startCommandNoPlaceholders) := by
  unfold uploadGame
  rw [if_neg (by simp [hname, htype, hfiles])]
  by_cases hsc : pyStrip req.config.startCommand = ""
  · simp [hsc]
  · rcases hbad with h | h
    · exact absurd h hsc
    · simp [hsc, h]

theorem upload_rejects_bad_start_command_witness :
    uploadGame {} "dev"
      { gameName := "g", gameType := "CLI", gameFiles := some [],
        config := { startCommand := "py game.py {host}" } } 0 =
      ({}, if pyStrip "py game.py {host}" = ""
        then UploadResult.startCommandRequired
        else UploadResult.startCommandNoPlaceholders) :=
  upload_rejects_bad_start_command {} "dev" _ 0 (by decide) (by decide)
    (by decide) (Or.inr (Or.inr (by decide)))

/-- Claim C10: on the lobby endpoint, `list_games` and `get_game_info` are
served without any prior login, while every other player action except
`register` and `login` hits the `Please login first` branch when the
connection has not logged in. -/
theorem lobby_login_gating :
    lobbyRoute "list_games" false = LobbyRoute.listGames ∧
    lobbyRoute "get_game_info" false = LobbyRoute.getGameInfo ∧
    (["download_game", "submit_review", "get_reviews", "create_room",
      "list_rooms", "join_room", "leave_room", "get_room_status",
      "start_game", "reset_room", "list_online_players"].all
        (fun a => lobbyRoute a false == LobbyRoute.pleaseLoginFirst)) = true := by
  decide

/-- Claim C1 fails as stated: the server extracts the uploaded archive and
deletes the original zip, and `download_game` re-zips the extracted files
with `ZIP_DEFLATED` and fresh timestamps, so the downloaded bundle is not
byte-for-byte identical to the uploaded one (here the uploaded archive
stored its entry with method 0 and time 5; the repacked one carries method 8
and the pack time). -/
theorem upload_download_not_byte_identical :
    (uploadGame {} "dev"
      { gameName := "g", gameType := "CLI",
        gameFiles := some [⟨"a", 5, 0, [1, 2]⟩],
        config := { startCommand := "py game.py {host} {port}" } } 0).2 =
      UploadResult.ok "g" "1.0.0" ∧
    (downloadGame
      (uploadGame {} "dev"
        { gameName := "g", gameType := "CLI",
          gameFiles := some [⟨"a", 5, 0, [1, 2]⟩],
          config := { startCommand := "py game.py {host} {port}" } } 0).1
      "p" "g" 5).2 =
      DownloadResult.ok [⟨"a", 5, 8, [1, 2]⟩]
        { startCommand := "py game.py {host} {port}" } "1.0.0" ∧
    serializeZip [⟨"a", 5, 8, [1, 2]⟩] ≠ serializeZip [⟨"a", 5, 0, [1, 2]⟩] := by
  refine ⟨by decide, by decide, by decide⟩

/-- Claim C1, amended: uploading a bundle and then downloading the game at
the same current version succeeds and returns a bundle holding exactly the
same files (names and contents) as the uploaded archive; the archive is
re-created (deflated, re-stamped), so only the extracted file map — not the
byte stream — is preserved. -/
theorem upload_download_preserves_files (st : StoreState) (dev player : String)
    (req : UploadReq) (archive : List ZipEntry) (now1 now2 : Nat)
    (hname : req.gameName ≠ "") (htype : req.gameType ≠ "")
    (hfiles : req.gameFiles = some archive)
    (hsc : pyStrip req.config.startCommand ≠ "")
    (hhost : strHasSub (pyStrip req.config.startCommand) "{host}" = true)
    (hport : strHasSub (pyStrip req.config.startCommand) "{port}" = true)
    (hnew : dictGet st.games req.gameName = none) :
    (uploadGame st dev req now1).2 = UploadResult.ok req.gameName req.version ∧
    (downloadGame (uploadGame st dev req now1).1 player req.gameName now2).2 =
      DownloadResult.ok (packZip (extractFiles archive) now2) req.config
        req.version ∧
    extractFiles (packZip (extractFiles archive) now2) = extractFiles archive := by
  have hup : uploadGame st dev req now1 =
      ({ st with
          bundles := dictSet st.bundles (req.gameName, req.version)
            (extractFiles archive)
          games := dictSet st.games req.gameName
            { developer := dev, gameType := req.gameType,
              description := req.description, maxPlayers := req.maxPlayers,
              version := req.version, createdAt := now1, updatedAt := now1,
              status := "active", config := req.config, downloadCount := 0,
              averageRating := 0, reviewCount := 0 } },
        UploadResult.ok req.gameName req.version) := by
    unfold uploadGame
    rw [if_neg (by simp [hname, htype, hfiles])]
    rw [if_neg hsc]
    rw [if_neg (by simp [hhost, hport])]
    rw [if_neg (by simp [dictHas, hnew])]
    simp [hfiles]
  refine ⟨by rw [hup], ?_, extractFiles_packZip _ _⟩
  rw [hup]
  simp [downloadGame, dictGet_dictSet_self, hname]

theorem upload_download_preserves_files_witness :
    (downloadGame
      (uploadGame {} "dev"
        { gameName := "g", gameType := "CLI",
          gameFiles := some [⟨"a", 5, 0, [1, 2]⟩],
          config := { startCommand := "py game.py {host} {port}" } } 0).1
      "p" "g" 7).2 =
      DownloadResult.ok (packZip (extractFiles [⟨"a", 5, 0, [1, 2]⟩]) 7)
        { startCommand := "py game.py {host} {port}" } "1.0.0" :=
  (upload_download_preserves_files {} "dev" "p" _ [⟨"a", 5, 0, [1, 2]⟩] 0 7
    (by decide) (by decide) rfl (by decide) (by decide) (by decide) rfl).2.1

/-- Claim C6 fails as stated: `handle_join_room` only checks the client
version when it is truthy (`if player_version and ...`), so a join request
carrying no version (falsy, modelled `""`) succeeds even though it does not
equal the room's `versionAtCreation` snapshot. -/
theorem join_room_version_check_bypassed :
    (joinRoom [("ROOM_0001",
      { roomId := "ROOM_0001", gameName := "tic", version := "1.0.0",
        host := "h", players := ["h"], readyPlayers := [], maxPlayers := 2,
        status := "waiting", createdAt := 0 })] "ROOM_0001" "p" "").2 =
      JoinResult.ok ["h", "p"] ∧
    ("" : String) ≠ "1.0.0" := by
  refine ⟨by decide, by decide⟩

/-- Claim C6, amended: `join_room` succeeds exactly when the room exists, is
`waiting`, the player is not already a member, the room is not full, and the
client version — **when non-empty** — equals the room's version snapshot (an
empty/absent client version skips the check); each failing guard yields its
corresponding error, in source order (not-found, wrong state, already-in,
full, version mismatch), and leaves the rooms map unchanged. -/
theorem join_room_guards (rooms : List (String × Room))
    (roomId player version : String) (hid : roomId ≠ "") :
    (dictGet rooms roomId = none →
      joinRoom rooms roomId player version = (rooms, JoinResult.notFound)) ∧
    ∀ room, dictGet rooms roomId = some room →
      (room.status ≠ "waiting" →
        joinRoom rooms roomId player version = (rooms, JoinResult.notWaiting)) ∧
      (room.status = "waiting" → player ∈ room.players →
        joinRoom rooms roomId player version = (rooms, JoinResult.alreadyIn)) ∧
      (room.status = "waiting" → player ∉ room.players →
        room.maxPlayers ≤ room.players.length →
        joinRoom rooms roomId player version = (rooms, JoinResult.full)) ∧
      (room.status = "waiting" → player ∉ room.players →
        room.players.length < room.maxPlayers →
        version ≠ "" → version ≠ room.version →
        joinRoom rooms roomId player version =
          (rooms, JoinResult.versionMismatch)) ∧
      (room.status = "waiting" → player ∉ room.players →
        room.players.length < room.maxPlayers →
        (version = "" ∨ version = room.version) →
        joinRoom rooms roomId player version =
          (dictSet rooms roomId { room with players := room.players ++ [player] },
           JoinResult.ok (room.players ++ [player]))) := by
  constructor
  · intro hnone
    unfold joinRoom
    rw [if_neg hid, hnone]
  · intro room hroom
    refine ⟨?_, ?_, ?_, ?_, ?_⟩
    · intro hst
      unfold joinRoom
      rw [if_neg hid, hroom]
      simp [hst]
    · intro hst hin
      unfold joinRoom
      rw [if_neg hid, hroom]
      simp [hst, hin]
    · intro hst hin hfull
      unfold joinRoom
      rw [if_neg hid, hroom]
      simp [hst, hin, hfull, Nat.not_lt.mpr hfull]
    · intro hst hin hlt hv hvne
      unfold joinRoom
      rw [if_neg hid, hroom]
      simp [hst, hin, Nat.not_le.mpr hlt, hv, hvne]
    · intro hst hin hlt hv
      unfold joinRoom
      rw [if_neg hid, hroom]
      rcases hv with hv | hv
      · simp [hst, hin, Nat.not_le.mpr hlt, hv]
      · simp [hst, hin, Nat.not_le.mpr hlt, hv]

theorem join_room_guards_witness :
    joinRoom [("ROOM_0001",
      { roomId := "ROOM_0001", gameName := "tic", version := "1.0.0",
        host := "h", players := ["h"], readyPlayers := [], maxPlayers := 2,
        status := "waiting", createdAt := 0 })] "ROOM_0001" "p" "1.0.0" =
      (dictSet [("ROOM_0001",
        { roomId := "ROOM_0001", gameName := "tic", version := "1.0.0",
          host := "h", players := ["h"], readyPlayers := [], maxPlayers := 2,
          status := "waiting", createdAt := 0 })] "ROOM_0001"
        { roomId := "ROOM_0001", gameName := "tic", version := "1.0.0",
          host := "h", players := ["h", "p"], readyPlayers := [],
          maxPlayers := 2, status := "waiting", createdAt := 0 },
       JoinResult.ok ["h", "p"]) :=
  ((join_room_guards
      [("ROOM_0001",
        { roomId := "ROOM_0001", gameName := "tic", version := "1.0.0",
          host := "h", players := ["h"], readyPlayers := [], maxPlayers := 2,
          status := "waiting", createdAt := 0 })] "ROOM_0001" "p" "1.0.0"
      (by decide)).2
    { roomId := "ROOM_0001", gameName := "tic", version := "1.0.0",
      host := "h", players := ["h"], readyPlayers := [], maxPlayers := 2,
      status := "waiting", createdAt := 0 }
    (by decide)).2.2.2.2 rfl (by decide) (by decide) (Or.inr rfl)

/-- Claim C9 fails as stated: the server-side `handle_upload_game` performs
no `N.N.N` validation of the version string — an upload carrying version
`"abc"` (which fails the developer client's format check) succeeds and
creates a catalog entry with that version. -/
theorem upload_accepts_malformed_version :
    clientVersionOk "abc" = false ∧
    (uploadGame {} "dev"
      { gameName := "g", gameType := "CLI", version := "abc",
        gameFiles := some [],
        config := { startCommand := "py x {host} {port}" } } 0).2 =
      UploadResult.ok "g" "abc" ∧
    (dictGet (uploadGame {} "dev"
      { gameName := "g", gameType := "CLI", version := "abc",
        gameFiles := some [],
        config := { startCommand := "py x {host} {port}" } } 0).1.games
      "g").map GameMeta.version = some "abc" := by
  refine ⟨by decide, by decide, by decide⟩

/-- Claim C9, amended: the `N.N.N` version-format validation lives in the
developer client's input loops, not in the server: the client check
(`version.split(".")` yields exactly three nonempty all-digit groups)
accepts exactly the strings of the form `N.N.N`, while the server-side
`upload_game` and `update_game` handlers accept any (truthy) version string
whatsoever and store it verbatim in the catalog entry. -/
theorem version_check_in_client_only (v : String) :
    (clientVersionOk v = true ↔ isNNN v) ∧
    (∀ (st : StoreState) (dev : String) (req : UploadReq) (now : Nat),
      req.version = v → req.gameName ≠ "" → req.gameType ≠ "" →
      req.gameFiles ≠ none → pyStrip req.config.startCommand ≠ "" →
      strHasSub (pyStrip req.config.startCommand) "{host}" = true →
      strHasSub (pyStrip req.config.startCommand) "{port}" = true →
      dictGet st.games req.gameName = none →
      (uploadGame st dev req now).2 = UploadResult.ok req.gameName v ∧
      (dictGet (uploadGame st dev req now).1.games req.gameName).map
        GameMeta.version = some v) ∧
    (∀ (st : StoreState) (dev : String) (req : UpdateReq) (now : Nat)
        (meta : GameMeta),
      req.version = v → v ≠ "" → req.gameName ≠ "" → req.gameFiles ≠ none →
      dictGet st.games req.gameName = some meta → meta.status = "active" →
      meta.developer = dev →
      (updateGame st dev req now).2 =
        UpdateResult.ok req.gameName v (roomsForGame st.rooms req.gameName)
          (pidsOf (roomsForGame st.rooms req.gameName)) ∧
      (dictGet (updateGame st dev req now).1.games req.gameName).map
        GameMeta.version = some v) := by
  refine ⟨?_, ?_, ?_⟩
  · constructor
    · intro h
      unfold clientVersionOk versionParts at h
      rw [Bool.and_eq_true] at h
      obtain ⟨hlen, hall⟩ := h
      rw [List.all_eq_true] at hall
      have hlen2 : (splitDot v.toList).2.length = 2 := by
        have := Nat.beq_eq_true_eq _ _ ▸ hlen
        simpa using this
      obtain ⟨b, c, hbc⟩ := List.length_eq_two.mp hlen2
      have ha := hall (splitDot v.toList).1 (List.mem_cons_self _ _)
      have hb := hall b (by rw [hbc]; simp)
      have hc := hall c (by rw [hbc]; simp)
      rw [Bool.and_eq_true] at ha hb hc
      refine ⟨(splitDot v.toList).1, b, c, ?_, ?_, ?_, ?_, ?_, ?_, ?_⟩
      · simpa using ha.1
      · simpa using hb.1
      · simpa using hc.1
      · exact ha.2
      · exact hb.2
      · exact hc.2
      · have hun := splitDot_unsplit v.toList
        rw [hbc] at hun
        simpa using hun.symm
    · rintro ⟨a, b, c, ha0, hb0, hc0, had, hbd, hcd, hl⟩
      have hano : ∀ x ∈ a, x ≠ '.' := fun x hx =>
        ne_dot_of_isDigit (List.all_eq_true.mp had x hx)
      have hbno : ∀ x ∈ b, x ≠ '.' := fun x hx =>
        ne_dot_of_isDigit (List.all_eq_true.mp hbd x hx)
      have hcno : ∀ x ∈ c, x ≠ '.' := fun x hx =>
        ne_dot_of_isDigit (List.all_eq_true.mp hcd x hx)
      have hl2 : v.toList = a ++ '.' :: (b ++ '.' :: c) := by
        rw [hl]; simp
      have hs : splitDot v.toList = (a, b :: [c]) := by
        rw [hl2, splitDot_append _ hano, splitDot_append _ hbno,
          splitDot_no_dot hcno]
      unfold clientVersionOk versionParts
      rw [hs]
      simp [had, hbd, hcd, ha0, hb0, hc0]
  · intro st dev req now hv hname htype hfiles hsc hhost hport hnew
    have hup : uploadGame st dev req now =
        ({ st with
            bundles := dictSet st.bundles (req.gameName, req.version)
              (extractFiles (req.gameFiles.getD []))
            games := dictSet st.games req.gameName
              { developer := dev, gameType := req.gameType,
                description := req.description, maxPlayers := req.maxPlayers,
                version := req.version, createdAt := now, updatedAt := now,
                status := "active", config := req.config, downloadCount := 0,
                averageRating := 0, reviewCount := 0 } },
          UploadResult.ok req.gameName req.version) := by
      unfold uploadGame
      rw [if_neg (by simp [hname, htype, hfiles])]
      rw [if_neg hsc]
      rw [if_neg (by simp [hhost, hport])]
      rw [if_neg (by simp [dictHas, hnew])]
    constructor
    · rw [hup, hv]
    · rw [hup]
      simp [dictGet_dictSet_self, hv]
  · intro st dev req now meta hv hvne hname hfiles hmeta hact hown
    have hupd : updateGame st dev req now =
        ({ st with
            bundles := dictSet st.bundles (req.gameName, req.version)
              (extractFiles (req.gameFiles.getD []))
            games := dictSet st.games req.gameName
              { meta with
                  version := req.version
                  updatedAt := now
                  updateNotes := req.updateNotes }
            rooms := dropRoomsForGame st.rooms req.gameName },
         UpdateResult.ok req.gameName req.version
           (roomsForGame st.rooms req.gameName)
           (pidsOf (roomsForGame st.rooms req.gameName))) := by
      unfold updateGame
      rw [if_neg (by simp [hname, hfiles, hv, hvne]), hmeta]
      simp [hact, hown]
    constructor
    · rw [hupd, hv]
    · rw [hupd]
      simp [dictGet_dictSet_self, hv]

theorem version_check_in_client_only_witness :
    ((uploadGame {} "dev"
      { gameName := "g", gameType := "CLI", version := "1.0.0",
        gameFiles := some [],
        config := { startCommand := "py x {host} {port}" } } 0).2 =
      UploadResult.ok "g" "1.0.0" ∧
    (dictGet (uploadGame {} "dev"
      { gameName := "g", gameType := "CLI", version := "1.0.0",
        gameFiles := some [],
        config := { startCommand := "py x {host} {port}" } } 0).1.games
      "g").map GameMeta.version = some "1.0.0") ∧
    ((updateGame
      { games := [("g",
          { developer := "dev", gameType := "CLI", description := "",
            maxPlayers := 2, version := "1.0.0", createdAt := 0,
            updatedAt := 0, status := "active",
            config := { startCommand := "py x {host} {port}" },
            downloadCount := 0, averageRating := 0, reviewCount := 0 })] }
      "dev" { gameName := "g", version := "2.0.0", gameFiles := some [] }
      1).2 = UpdateResult.ok "g" "2.0.0" [] [] ∧
    (dictGet (updateGame
      { games := [("g",
          { developer := "dev", gameType := "CLI", description := "",
            maxPlayers := 2, version := "1.0.0", createdAt := 0,
            updatedAt := 0, status := "active",
            config := { startCommand := "py x {host} {port}" },
            downloadCount := 0, averageRating := 0, reviewCount := 0 })] }
      "dev" { gameName := "g", version := "2.0.0", gameFiles := some [] }
      1).1.games "g").map GameMeta.version = some "2.0.0") :=
  ⟨(version_check_in_client_only "1.0.0").2.1 {} "dev" _ 0 rfl (by decide)
    (by decide) (by decide) (by decide) (by decide) (by decide) rfl,
   (version_check_in_client_only "2.0.0").2.2
    { games := [("g",
        { developer := "dev", gameType := "CLI", description := "",
          maxPlayers := 2, version := "1.0.0", createdAt := 0,
          updatedAt := 0, status := "active",
          config := { startCommand := "py x {host} {port}" },
          downloadCount := 0, averageRating := 0, reviewCount := 0 })] }
    "dev" { gameName := "g", version := "2.0.0", gameFiles := some [] } 1
    { developer := "dev", gameType := "CLI", description := "",
      maxPlayers := 2, version := "1.0.0", createdAt := 0,
      updatedAt := 0, status := "active",
      config := { startCommand := "py x {host} {port}" },
      downloadCount := 0, averageRating := 0, reviewCount := 0 }
    rfl (by decide) (by decide) (by decide) rfl rfl rfl⟩

/-- Claim C4: after a successful `remove_game(name)` or
`update_game(name, newVersion)`, no room whose game equals `name` survives:
every such room is dropped from the rooms map, every game-server pid such a
room owned is in the killed list, the destroyed rooms are exactly the rooms
of that game and are returned in the response, and rooms of other games are
untouched. -/
theorem update_remove_cascade (st : StoreState) (dev : String)
    (req : UpdateReq) (name : String) (now : Nat) (g g2 : GameMeta)
    (hn : req.gameName ≠ "") (hv : req.version ≠ "") (hf : req.gameFiles ≠ none)
    (hg : dictGet st.games req.gameName = some g) (hact : g.status = "active")
    (hown : g.developer = dev)
    (hname : name ≠ "") (hg2 : dictGet st.games name = some g2)
    (hown2 : g2.developer = dev) :
    updateGame st dev req now =
      ({ st with
          bundles := dictSet st.bundles (req.gameName, req.version)
            (extractFiles (req.gameFiles.getD []))
          games := dictSet st.games req.gameName
            { g with
                version := req.version
                updatedAt := now
                updateNotes := req.updateNotes }
          rooms := dropRoomsForGame st.rooms req.gameName },
       UpdateResult.ok req.gameName req.version
         (roomsForGame st.rooms req.gameName)
         (pidsOf (roomsForGame st.rooms req.gameName))) ∧
    removeGame st dev name =
      ({ st with
          games := dictDel st.games name
          bundles := st.bundles.filter (fun b => b.1.1 ≠ name)
          rooms := dropRoomsForGame st.rooms name },
       RemoveResult.ok name (roomsForGame st.rooms name)
         (pidsOf (roomsForGame st.rooms name))) ∧
    (∀ gm : String, ∀ rr ∈ dropRoomsForGame st.rooms gm, rr.2.gameName ≠ gm) ∧
    (∀ gm : String, ∀ rr ∈ st.rooms,
      (rr.2.gameName = gm →
        rr ∈ roomsForGame st.rooms gm ∧
        ∀ pid, rr.2.gameServerPid = some pid →
          pid ∈ pidsOf (roomsForGame st.rooms gm)) ∧
      (rr.2.gameName ≠ gm → rr ∈ dropRoomsForGame st.rooms gm)) ∧
    (∀ gm : String, ∀ rr ∈ roomsForGame st.rooms gm,
      rr ∈ st.rooms ∧ rr.2.gameName = gm) := by
  refine ⟨?_, ?_, ?_, ?_, ?_⟩
  · unfold updateGame
    rw [if_neg (by simp [hn, hv, hf]), hg]
    simp [hact, hown]
  · unfold removeGame
    rw [if_neg hname, hg2]
    simp [hown2]
  · intro gm rr hrr
    exact of_decide_eq_true (List.mem_filter.mp hrr).2
  · intro gm rr hrr
    constructor
    · intro hgm
      constructor
      · exact List.mem_filter.mpr ⟨hrr, by simp [hgm]⟩
      · intro pid hpid
        unfold pidsOf
        rw [List.mem_filterMap]
        exact ⟨rr, List.mem_filter.mpr ⟨hrr, by simp [hgm]⟩, hpid⟩
    · intro hgm
      exact List.mem_filter.mpr ⟨hrr, by simp [hgm]⟩
  · intro gm rr hrr
    rcases List.mem_filter.mp hrr with ⟨h1, h2⟩
    exact ⟨h1, by simpa using h2⟩

theorem update_remove_cascade_witness :
    updateGame
      { games := [("g",
          { developer := "dev", gameType := "CLI", description := "",
            maxPlayers := 2, version := "1.0.0", createdAt := 0,
            updatedAt := 0, status := "active",
            config := { startCommand := "py x {host} {port}" },
            downloadCount := 0, averageRating := 0, reviewCount := 0 })]
        rooms := [("ROOM_0001",
          { roomId := "ROOM_0001", gameName := "g", version := "1.0.0",
            host := "h", players := ["h", "p"], readyPlayers := [],
            maxPlayers := 2, status := "playing", createdAt := 0,
            gameServerPort := some 20001, gameServerPid := some 7 })] }
      "dev" { gameName := "g", version := "2.0.0", gameFiles := some [] } 1 =
      ({ games := [("g",
          { developer := "dev", gameType := "CLI", description := "",
            maxPlayers := 2, version := "2.0.0", createdAt := 0,
            updatedAt := 1, status := "active",
            config := { startCommand := "py x {host} {port}" },
            downloadCount := 0, averageRating := 0, reviewCount := 0 })]
         bundles := [(("g", "2.0.0"), [])]
         rooms := [] },
       UpdateResult.ok "g" "2.0.0"
         [("ROOM_0001",
          { roomId := "ROOM_0001", gameName := "g", version := "1.0.0",
            host := "h", players := ["h", "p"], readyPlayers := [],
            maxPlayers := 2, status := "playing", createdAt := 0,
            gameServerPort := some 20001, gameServerPid := some 7 })] [7]) := by
  have h := (update_remove_cascade
    { games := [("g",
        { developer := "dev", gameType := "CLI", description := "",
          maxPlayers := 2, version := "1.0.0", createdAt := 0,
          updatedAt := 0, status := "active",
          config := { startCommand := "py x {host} {port}" },
          downloadCount := 0, averageRating := 0, reviewCount := 0 })]
      rooms := [("ROOM_0001",
        { roomId := "ROOM_0001", gameName := "g", version := "1.0.0",
          host := "h", players := ["h", "p"], readyPlayers := [],
          maxPlayers := 2, status := "playing", createdAt := 0,
          gameServerPort := some 20001, gameServerPid := some 7 })] }
    "dev" { gameName := "g", version := "2.0.0", gameFiles := some [] } "g" 1
    { developer := "dev", gameType := "CLI", description := "",
      maxPlayers := 2, version := "1.0.0", createdAt := 0,
      updatedAt := 0, status := "active",
      config := { startCommand := "py x {host} {port}" },
      downloadCount := 0, averageRating := 0, reviewCount := 0 }
    { developer := "dev", gameType := "CLI", description := "",
      maxPlayers := 2, version := "1.0.0", createdAt := 0,
      updatedAt := 0, status := "active",
      config := { startCommand := "py x {host} {port}" },
      downloadCount := 0, averageRating := 0, reviewCount := 0 }
    (by decide) (by decide) (by decide) (by decide) rfl rfl (by decide)
    (by decide) rfl).1
  rw [h]
  decide

/-- Claim C5: `leave_room` disbands the room (deleting it and stopping any
owned game-server process) when the host leaves; a non-host leaver is only
removed from the member list; a room whose member list becomes empty is
deleted; and consequently — given that all rooms satisfy the host-membership
invariant — every surviving room still has its host among its members and at
least one member. -/
theorem leave_room_spec (rooms : List (String × Room)) (roomId player : String)
    (room : Room) (hid : roomId ≠ "")
    (hroom : dictGet rooms roomId = some room) (hmem : player ∈ room.players)
    (hinv : ∀ rr ∈ rooms, rr.2.host ∈ rr.2.players) :
    (player = room.host →
      leaveRoom rooms roomId player =
        (dictDel rooms roomId,
         LeaveResult.disbandedHost (room.players.erase player)
           room.gameServerPid.toList)) ∧
    (player ≠ room.host → room.players.erase player = [] →
      leaveRoom rooms roomId player =
        (dictDel rooms roomId, LeaveResult.deletedEmpty)) ∧
    (player ≠ room.host → room.players.erase player ≠ [] →
      leaveRoom rooms roomId player =
        (dictSet rooms roomId { room with players := room.players.erase player },
         LeaveResult.left (room.players.erase player).length)) ∧
    (∀ rr ∈ (leaveRoom rooms roomId player).1,
      rr.2.host ∈ rr.2.players ∧ rr.2.players ≠ []) := by
  have hhost : room.host ∈ room.players := by
    simpa using hinv (roomId, room) (dictGet_mem hroom)
  refine ⟨?_, ?_, ?_, ?_⟩
  · intro hph
    unfold leaveRoom
    rw [if_neg hid, hroom]
    simp [hmem, hph, hhost]
  · intro hph hemp
    unfold leaveRoom
    rw [if_neg hid, hroom]
    simp [hmem, hph, hemp]
  · intro hph hne
    unfold leaveRoom
    rw [if_neg hid, hroom]
    simp [hmem, hph, hne]
  · by_cases hph : player = room.host
    · have hres : (leaveRoom rooms roomId player).1 = dictDel rooms roomId := by
        unfold leaveRoom
        rw [if_neg hid, hroom]
        simp [hmem, hph, hhost]
      rw [hres]
      intro rr hrr
      have h2 := hinv rr (mem_dictDel hrr)
      exact ⟨h2, List.ne_nil_of_mem h2⟩
    · have hhe : room.host ∈ room.players.erase player :=
        (List.mem_erase_of_ne (fun he => hph he.symm)).mpr hhost
      have hne : room.players.erase player ≠ [] := List.ne_nil_of_mem hhe
      have hres : (leaveRoom rooms roomId player).1 =
          dictSet rooms roomId
            { room with players := room.players.erase player } := by
        unfold leaveRoom
        rw [if_neg hid, hroom]
        simp [hmem, hph, hne]
      rw [hres]
      intro rr hrr
      rcases mem_dictSet hrr with h | h
      · rw [h]
        exact ⟨hhe, hne⟩
      · exact ⟨hinv rr h, List.ne_nil_of_mem (hinv rr h)⟩

theorem leave_room_spec_witness :
    leaveRoom [("ROOM_0001",
      { roomId := "ROOM_0001", gameName := "tic", version := "1.0.0",
        host := "h", players := ["h", "p", "q"], readyPlayers := [],
        maxPlayers := 3, status := "playing", createdAt := 0,
        gameServerPort := some 20001, gameServerPid := some 7 })]
      "ROOM_0001" "h" =
      (dictDel [("ROOM_0001",
        { roomId := "ROOM_0001", gameName := "tic", version := "1.0.0",
          host := "h", players := ["h", "p", "q"], readyPlayers := [],
          maxPlayers := 3, status := "playing", createdAt := 0,
          gameServerPort := some 20001, gameServerPid := some 7 })]
        "ROOM_0001",
       LeaveResult.disbandedHost (["h", "p", "q"].erase "h")
         (some 7).toList) :=
  (leave_room_spec _ "ROOM_0001" "h"
    { roomId := "ROOM_0001", gameName := "tic", version := "1.0.0",
      host := "h", players := ["h", "p", "q"], readyPlayers := [],
      maxPlayers := 3, status := "playing", createdAt := 0,
      gameServerPort := some 20001, gameServerPid := some 7 }
    (by decide) (by decide) (by decide)
    (by intro rr hrr; simp at hrr; rw [hrr]; decide)).1 rfl

/-! ## More dictionary lemmas (unique-key invariants) -/

theorem dictGet_isSome_of_mem_keys {κ α : Type} [DecidableEq κ]
    {d : List (κ × α)} {k : κ} (h : k ∈ d.map Prod.fst) :
    (dictGet d k).isSome = true := by
  induction d with
  | nil => simp at h
  | cons hd t ih =>
    obtain ⟨k2, v2⟩ := hd
    by_cases hk : k2 = k
    · simp [dictGet, hk]
    · simp only [List.map_cons, List.mem_cons] at h
      rcases h with h | h
      · exact absurd h.symm hk
      · simp [dictGet, hk, ih h]

theorem keysNodup_presenceLogin (onl : List (String × Nat)) (u : String)
    (c : Nat) (h : keysNodup onl) : keysNodup (presenceLogin onl u c).1 := by
  unfold presenceLogin
  by_cases hh : dictHas onl u = true
  · simp [hh, h]
  · rw [if_neg hh]
    have hu : u ∉ onl.map Prod.fst := fun hm =>
      hh (dictGet_isSome_of_mem_keys hm)
    simp only [keysNodup, List.map_append, List.map_cons, List.map_nil]
    rw [List.nodup_append]
    refine ⟨h, List.nodup_singleton u, fun a ha hb => ?_⟩
    rw [List.mem_singleton] at hb
    exact hu (hb ▸ ha)

theorem mem_dictDel_ne_key {κ α : Type} [DecidableEq κ]
    {d : List (κ × α)} {k : κ} {rr : κ × α}
    (hnd : keysNodup d) (hrr : rr ∈ dictDel d k) : rr.1 ≠ k := by
  induction d with
  | nil => simp [dictDel] at hrr
  | cons hd t ih =>
    obtain ⟨k2, v2⟩ := hd
    simp only [keysNodup, List.map_cons, List.nodup_cons] at hnd
    by_cases hk : k2 = k
    · simp only [dictDel, if_pos hk] at hrr
      intro he
      have hmm : rr.1 ∈ t.map Prod.fst := List.mem_map_of_mem Prod.fst hrr
      rw [he, ← hk] at hmm
      exact hnd.1 hmm
    · simp only [dictDel, if_neg hk, List.mem_cons] at hrr
      rcases hrr with hrr | hrr
      · rw [hrr]
        exact hk
      · exact ih hnd.2 hrr

theorem mem_dictSet_nodup {κ α : Type} [DecidableEq κ]
    {d : List (κ × α)} {k : κ} {v : α} {rr : κ × α}
    (hnd : keysNodup d) (hrr : rr ∈ dictSet d k v) :
    rr = (k, v) ∨ (rr ∈ d ∧ rr.1 ≠ k) := by
  induction d with
  | nil =>
    simp only [dictSet, List.mem_singleton] at hrr
    exact Or.inl hrr
  | cons hd t ih =>
    obtain ⟨k2, v2⟩ := hd
    simp only [keysNodup, List.map_cons, List.nodup_cons] at hnd
    by_cases hk : k2 = k
    · simp only [dictSet, if_pos hk, List.mem_cons] at hrr
      rcases hrr with hrr | hrr
      · exact Or.inl hrr
      · refine Or.inr ⟨List.mem_cons_of_mem _ hrr, fun he => ?_⟩
        have hmm : rr.1 ∈ t.map Prod.fst := List.mem_map_of_mem Prod.fst hrr
        rw [he, ← hk] at hmm
        exact hnd.1 hmm
    · simp only [dictSet, if_neg hk, List.mem_cons] at hrr
      rcases hrr with hrr | hrr
      · exact Or.inr ⟨by simp [hrr], by rw [hrr]; exact hk⟩
      · rcases ih hnd.2 hrr with h | h
        · exact Or.inl h
        · exact Or.inr ⟨List.mem_cons_of_mem _ h.1, h.2⟩

theorem dictGet_of_mem_nodup {κ α : Type} [DecidableEq κ]
    {d : List (κ × α)} {k : κ} {v : α}
    (hnd : keysNodup d) (hm : (k, v) ∈ d) : dictGet d k = some v := by
  induction d with
  | nil => simp at hm
  | cons hd t ih =>
    obtain ⟨k2, v2⟩ := hd
    simp only [keysNodup, List.map_cons, List.nodup_cons] at hnd
    rcases List.mem_cons.mp hm with hm | hm
    · injection hm with hk hv
      subst hk
      subst hv
      simp [dictGet]
    · have hk : k2 ≠ k := by
        intro he
        have hmm : k ∈ t.map Prod.fst := List.mem_map_of_mem Prod.fst hm
        rw [← he] at hmm
        exact hnd.1 hmm
      simp [dictGet, hk, ih hnd.2 hm]

/-- Claim C7, amended: at most one presence entry exists per player name: a
login while the player is already online fails (already-online) and leaves
the presence table unchanged, login preserves key-uniqueness of the table,
and closing the logged-in connection removes the player's entry and
auto-leaves only the **first** room (insertion order) the player is found
in — so only when the player is in at most one room do they end up in no
room — after which a new login for that name succeeds. -/
theorem presence_single_session (onl : List (String × Nat))
    (rooms : List (String × Room)) (user : String) (conn conn2 : Nat)
    (hnd : keysNodup onl) (honline : dictHas onl user = true)
    (hndr : keysNodup rooms) (hids : ∀ rr ∈ rooms, rr.1 ≠ "")
    (hpn : ∀ rr ∈ rooms, rr.2.players.Nodup) :
    presenceLogin onl user conn = (onl, LoginResult.alreadyOnline) ∧
    (∀ onl2 : List (String × Nat), ∀ u : String, ∀ c : Nat,
      keysNodup onl2 → keysNodup (presenceLogin onl2 u c).1) ∧
    dictGet (disconnectCleanup rooms onl user).2 user = none ∧
    presenceLogin (disconnectCleanup rooms onl user).2 user conn2 =
      ((disconnectCleanup rooms onl user).2 ++ [(user, conn2)],
       LoginResult.ok) ∧
    (∀ rid, findPlayerRoom rooms user = some rid →
      ∀ rr ∈ (disconnectCleanup rooms onl user).1, rr.1 = rid →
        user ∉ rr.2.players) ∧
    ((∀ rr ∈ rooms, ∀ rr2 ∈ rooms,
        user ∈ rr.2.players → user ∈ rr2.2.players → rr = rr2) →
      ∀ rr ∈ (disconnectCleanup rooms onl user).1, user ∉ rr.2.players) := by
  have hsnd : (disconnectCleanup rooms onl user).2 = dictDel onl user := rfl
  have hdel : dictGet (dictDel onl user) user = none :=
    dictGet_dictDel_self hnd user
  refine ⟨?_, ?_, ?_, ?_, ?_, ?_⟩
  · simp [presenceLogin, honline]
  · exact fun onl2 u c h => keysNodup_presenceLogin onl2 u c h
  · rw [hsnd]
    exact hdel
  · rw [hsnd]
    simp [presenceLogin, dictHas, hdel]
  · intro rid hfind rr hrr hr1
    unfold disconnectCleanup at hrr
    rw [hfind] at hrr
    simp only at hrr
    unfold findPlayerRoom at hfind
    rw [Option.map_eq_some'] at hfind
    obtain ⟨rr0, hf0, hr0⟩ := hfind
    have hmem0 : rr0 ∈ rooms := List.mem_of_find?_eq_some hf0
    have hp0 : user ∈ rr0.2.players := by
      simpa using List.find?_some hf0
    obtain ⟨rid0, room0⟩ := rr0
    simp only at hr0
    subst hr0
    have hid0 : rid0 ≠ "" := hids _ hmem0
    have hgid : dictGet rooms rid0 = some room0 :=
      dictGet_of_mem_nodup hndr hmem0
    have hp0m : user ∈ room0.players := by simpa using hp0
    have hlv : (leaveRoom rooms rid0 user).1 =
        if user = room0.host then dictDel rooms rid0
        else if room0.players.erase user = [] then dictDel rooms rid0
        else dictSet rooms rid0
          { room0 with players := room0.players.erase user } := by
      unfold leaveRoom
      rw [if_neg hid0, hgid]
      by_cases h1 : user = room0.host
      · have hh : room0.host ∈ room0.players := h1 ▸ hp0m
        simp [hp0m, h1, hh]
      · by_cases h2 : room0.players.erase user = []
        · simp [hp0m, h1, h2]
        · simp [hp0m, h1, h2]
    rw [hlv] at hrr
    by_cases h1 : user = room0.host
    · rw [if_pos h1] at hrr
      exact absurd hr1 (mem_dictDel_ne_key hndr hrr)
    · rw [if_neg h1] at hrr
      by_cases h2 : room0.players.erase user = []
      · rw [if_pos h2] at hrr
        exact absurd hr1 (mem_dictDel_ne_key hndr hrr)
      · rw [if_neg h2] at hrr
        rcases mem_dictSet_nodup hndr hrr with h | h
        · rw [h]
          exact (hpn (rid0, room0) hmem0).not_mem_erase
        · exact absurd hr1 h.2
  · intro honce rr hrr
    unfold disconnectCleanup at hrr
    cases hfind : findPlayerRoom rooms user with
    | none =>
      rw [hfind] at hrr
      simp only at hrr
      unfold findPlayerRoom at hfind
      rw [Option.map_eq_none'] at hfind
      have := List.find?_eq_none.mp hfind rr hrr
      simpa using this
    | some rid =>
      rw [hfind] at hrr
      simp only at hrr
      unfold findPlayerRoom at hfind
      rw [Option.map_eq_some'] at hfind
      obtain ⟨rr0, hf0, hr0⟩ := hfind
      have hmem0 : rr0 ∈ rooms := List.mem_of_find?_eq_some hf0
      have hp0 : user ∈ rr0.2.players := by
        simpa using List.find?_some hf0
      obtain ⟨rid0, room0⟩ := rr0
      simp only at hr0
      subst hr0
      have hid0 : rid0 ≠ "" := hids _ hmem0
      have hgid : dictGet rooms rid0 = some room0 :=
        dictGet_of_mem_nodup hndr hmem0
      have hp0m : user ∈ room0.players := by simpa using hp0
      have hdelcase : ∀ rr2 ∈ dictDel rooms rid0, user ∉ rr2.2.players := by
        intro rr2 h2 hmem
        have hne := mem_dictDel_ne_key hndr h2
        have heq := honce rr2 (mem_dictDel h2) (rid0, room0) hmem0 hmem hp0
        rw [heq] at hne
        exact hne rfl
      have hlv : (leaveRoom rooms rid0 user).1 =
          if user = room0.host then dictDel rooms rid0
          else if room0.players.erase user = [] then dictDel rooms rid0
          else dictSet rooms rid0
            { room0 with players := room0.players.erase user } := by
        unfold leaveRoom
        rw [if_neg hid0, hgid]
        by_cases h1 : user = room0.host
        · have hh : room0.host ∈ room0.players := h1 ▸ hp0m
          simp [hp0m, h1, hh]
        · by_cases h2 : room0.players.erase user = []
          · simp [hp0m, h1, h2]
          · simp [hp0m, h1, h2]
      rw [hlv] at hrr
      by_cases h1 : user = room0.host
      · rw [if_pos h1] at hrr
        exact hdelcase rr hrr
      · rw [if_neg h1] at hrr
        by_cases h2 : room0.players.erase user = []
        · rw [if_pos h2] at hrr
          exact hdelcase rr hrr
        · rw [if_neg h2] at hrr
          rcases mem_dictSet_nodup hndr hrr with h | h
          · rw [h]
            exact (hpn (rid0, room0) hmem0).not_mem_erase
          · intro hmem
            have heq := honce rr h.1 (rid0, room0) hmem0 hmem hp0
            rw [heq] at h
            exact h.2 rfl

theorem presence_single_session_witness :
    presenceLogin (disconnectCleanup [] [("bob", 1)] "bob").2 "bob" 2 =
      ((disconnectCleanup [] [("bob", 1)] "bob").2 ++ [("bob", 2)],
       LoginResult.ok) :=
  (presence_single_session [("bob", 1)] [] "bob" 1 2 (by simp [keysNodup])
    (by decide) (by simp [keysNodup]) (by simp) (by simp)).2.2.2.1

/-- Claim C7 fails as stated: the disconnect cleanup auto-leaves only the
first room the player is found in.  `bob` joins a room hosted by `alice`
and then one hosted by `carol` (neither `create_room` nor `join_room`
checks membership in other rooms, so this is reachable); closing `bob`'s
connection removes the presence entry but leaves `bob` a member of the
second room. -/
theorem disconnect_skips_second_room :
    (joinRoom [("ROOM_0001", c7RoomA), ("ROOM_0002", c7RoomC)]
      "ROOM_0001" "bob" "1.0.0").2 = JoinResult.ok ["alice", "bob"] ∧
    (joinRoom (joinRoom [("ROOM_0001", c7RoomA), ("ROOM_0002", c7RoomC)]
      "ROOM_0001" "bob" "1.0.0").1 "ROOM_0002" "bob" "1.0.0").2 =
      JoinResult.ok ["carol", "bob"] ∧
    (disconnectCleanup c7Rooms [("bob", 1)] "bob").2 = [] ∧
    (disconnectCleanup c7Rooms [("bob", 1)] "bob").1 =
      [("ROOM_0001", c7RoomA),
       ("ROOM_0002", { c7RoomC with players := ["carol", "bob"] })] ∧
    "bob" ∈ ({ c7RoomC with players := ["carol", "bob"] } : Room).players := by
  refine ⟨by decide, by decide, by decide, by decide, by decide⟩

/-- Characterization of the success path of `handle_submit_review`. -/
theorem submitReview_ok (st : StoreState) (p g c t : String) (rt : Int)
    (meta : GameMeta) (hist : List String)
    (hg : g ≠ "") (hr : 1 ≤ rt ∧ rt ≤ 5)
    (hmeta : dictGet st.games g = some meta) (hact : meta.status = "active")
    (hp : dictGet st.players p = some hist) (hdl : g ∈ hist) :
    submitReview st p g (some rt) c t =
      ({ st with
          reviews := dictSet st.reviews g
            (upsertReview ((dictGet st.reviews g).getD []) (mkReview p rt c t))
          games := dictSet st.games g
            { meta with
                averageRating := roundTo 2 (meanRating
                  (upsertReview ((dictGet st.reviews g).getD [])
                    (mkReview p rt c t)))
                reviewCount := (upsertReview ((dictGet st.reviews g).getD [])
                  (mkReview p rt c t)).length } },
       if ((dictGet st.reviews g).getD []).any (fun r => r.player == p)
         then ReviewResult.okUpdated else ReviewResult.okSubmitted) := by
  show submitReviewRated st p g rt c t = _
  unfold submitReviewRated
  rw [if_neg hg, if_neg (not_not_intro hr), hmeta]
  simp [hact, hp, hdl, mkReview]

/-- Claim C2: the review list holds at most one review per player (the
pairwise-distinct-player invariant is preserved), and a second
`submit_review` by the same player for the same game replaces the first:
afterwards exactly one review by that player exists, it carries the new
rating and comment, and the stored `review_count` is unchanged from the
first submission. -/
theorem submit_review_replaces (st : StoreState) (p g c1 c2 t1 t2 : String)
    (r1 r2 : Int) (meta : GameMeta) (hist : List String)
    (hg : g ≠ "") (hr1 : 1 ≤ r1 ∧ r1 ≤ 5) (hr2 : 1 ≤ r2 ∧ r2 ≤ 5)
    (hmeta : dictGet st.games g = some meta) (hact : meta.status = "active")
    (hp : dictGet st.players p = some hist) (hdl : g ∈ hist)
    (hinv : ((dictGet st.reviews g).getD []).Pairwise
      (fun a b => a.player ≠ b.player)) :
    (submitReview (submitReview st p g (some r1) c1 t1).1 p g (some r2) c2
      t2).2 = ReviewResult.okUpdated ∧
    (dictGet (submitReview (submitReview st p g (some r1) c1 t1).1 p g
      (some r2) c2 t2).1.reviews g).getD [] =
      upsertReview (upsertReview ((dictGet st.reviews g).getD [])
        (mkReview p r1 c1 t1)) (mkReview p r2 c2 t2) ∧
    (upsertReview (upsertReview ((dictGet st.reviews g).getD [])
        (mkReview p r1 c1 t1)) (mkReview p r2 c2 t2)).countP
      (fun b => b.player == p) = 1 ∧
    (∀ rv ∈ upsertReview (upsertReview ((dictGet st.reviews g).getD [])
        (mkReview p r1 c1 t1)) (mkReview p r2 c2 t2),
      rv.player = p → rv = mkReview p r2 c2 t2) ∧
    (upsertReview (upsertReview ((dictGet st.reviews g).getD [])
        (mkReview p r1 c1 t1)) (mkReview p r2 c2 t2)).Pairwise
      (fun a b => a.player ≠ b.player) ∧
    (dictGet (submitReview (submitReview st p g (some r1) c1 t1).1 p g
      (some r2) c2 t2).1.games g).map GameMeta.reviewCount =
      (dictGet (submitReview st p g (some r1) c1 t1).1.games g).map
        GameMeta.reviewCount := by
  have h1 := submitReview_ok st p g c1 t1 r1 meta hist hg hr1 hmeta hact hp hdl
  have hst1 : (submitReview st p g (some r1) c1 t1).1 =
      { st with
          reviews := dictSet st.reviews g
            (upsertReview ((dictGet st.reviews g).getD [])
              (mkReview p r1 c1 t1))
          games := dictSet st.games g
            { meta with
                averageRating := roundTo 2 (meanRating
                  (upsertReview ((dictGet st.reviews g).getD [])
                    (mkReview p r1 c1 t1)))
                reviewCount := (upsertReview ((dictGet st.reviews g).getD [])
                  (mkReview p r1 c1 t1)).length } } := by
    rw [h1]
  have hpw1 : (upsertReview ((dictGet st.reviews g).getD [])
      (mkReview p r1 c1 t1)).Pairwise (fun a b => a.player ≠ b.player) :=
    upsert_pairwise hinv
  have hany : (upsertReview ((dictGet st.reviews g).getD [])
      (mkReview p r1 c1 t1)).any (fun r => r.player == p) = true :=
    List.any_eq_true.mpr ⟨mkReview p r1 c1 t1, self_mem_upsert _ _,
      by simp [mkReview]⟩
  rw [hst1]
  have h2 := submitReview_ok
    { st with
        reviews := dictSet st.reviews g
          (upsertReview ((dictGet st.reviews g).getD [])
            (mkReview p r1 c1 t1))
        games := dictSet st.games g
          { meta with
              averageRating := roundTo 2 (meanRating
                (upsertReview ((dictGet st.reviews g).getD [])
                  (mkReview p r1 c1 t1)))
              reviewCount := (upsertReview ((dictGet st.reviews g).getD [])
                (mkReview p r1 c1 t1)).length } }
    p g c2 t2 r2
    { meta with
        averageRating := roundTo 2 (meanRating
          (upsertReview ((dictGet st.reviews g).getD [])
            (mkReview p r1 c1 t1)))
        reviewCount := (upsertReview ((dictGet st.reviews g).getD [])
          (mkReview p r1 c1 t1)).length }
    hist hg hr2 (dictGet_dictSet_self _ _ _) hact hp hdl
  have hrevA : (dictGet (dictSet st.reviews g
      (upsertReview ((dictGet st.reviews g).getD [])
        (mkReview p r1 c1 t1))) g).getD [] =
      upsertReview ((dictGet st.reviews g).getD []) (mkReview p r1 c1 t1) := by
    rw [dictGet_dictSet_self]
    rfl
  rw [hrevA] at h2
  rw [hany] at h2
  rw [if_pos rfl] at h2
  rw [h2]
  refine ⟨rfl, ?_, ?_, ?_, ?_, ?_⟩
  · exact hrevA.trans rfl ▸ (by rw [dictGet_dictSet_self]; rfl)
  · simpa [mkReview] using
      upsert_count_one (mkReview p r2 c2 t2) hpw1
  · intro rv hrv hrvp
    exact upsert_player_eq hpw1 hrv (by simpa [mkReview] using hrvp)
  · exact upsert_pairwise hpw1
  · rw [dictGet_dictSet_self, dictGet_dictSet_self]
    simp only [Option.map_some]
    have hlen := @upsert_length_of_any
      (upsertReview ((dictGet st.reviews g).getD []) (mkReview p r1 c1 t1))
      (mkReview p r2 c2 t2) (by simpa [mkReview] using hany)
    simpa [mkReview] using hlen

theorem submit_review_replaces_witness :
    (submitReview (submitReview
      { games := [("g",
          { developer := "dev", gameType := "CLI", description := "",
            maxPlayers := 2, version := "1.0.0", createdAt := 0,
            updatedAt := 0, status := "active",
            config := { startCommand := "py x {host} {port}" },
            downloadCount := 1, averageRating := 0, reviewCount := 0 })]
        players := [("bob", ["g"])] }
      "bob" "g" (some 4) "nice" "t1").1 "bob" "g" (some 5) "better" "t2").2 =
      ReviewResult.okUpdated :=
  (submit_review_replaces
    { games := [("g",
        { developer := "dev", gameType := "CLI", description := "",
          maxPlayers := 2, version := "1.0.0", createdAt := 0,
          updatedAt := 0, status := "active",
          config := { startCommand := "py x {host} {port}" },
          downloadCount := 1, averageRating := 0, reviewCount := 0 })]
      players := [("bob", ["g"])] }
    "bob" "g" "nice" "better" "t1" "t2" 4 5
    { developer := "dev", gameType := "CLI", description := "",
      maxPlayers := 2, version := "1.0.0", createdAt := 0,
      updatedAt := 0, status := "active",
      config := { startCommand := "py x {host} {port}" },
      downloadCount := 1, averageRating := 0, reviewCount := 0 }
    ["g"] (by decide) (by decide) (by decide) rfl rfl rfl (by decide)
    (by simp [dictGet])).1

/-- Claim C3 fails as stated: in the reachable state `c3State` (upload,
three downloads, three reviews with ratings 1, 1, 2) the aggregates returned
by `get_reviews` round the mean to **1** decimal place (`round(avg, 1)` in
`handle_get_reviews`), not 2: for mean 4/3 it reports 1.3 while rounding to
2 decimal places gives 1.33. -/
theorem get_reviews_rounds_to_one_dp :
    getReviews c3State "g" =
      GetReviewsResult.ok c3Reviews 3 (roundTo 1 (meanRating c3Reviews)) ∧
    meanRating c3Reviews = 4 / 3 ∧
    roundTo 1 (4 / 3 : ℚ) ≠ roundTo 2 (4 / 3 : ℚ) := by
  refine ⟨?_, ?_, ?_⟩
  · have h0 : c3State.reviews = [("g", c3Reviews)] := by decide
    simp [getReviews, h0, dictGet, c3Reviews, mkReview, upsertReview]
  · norm_num [meanRating, c3Reviews, mkReview]
  · norm_num [roundTo, roundHalfEven]

/-- Claim C3, amended: immediately after a successful `submit_review`, the
game's stored `average_rating` equals the mean of its review list rounded to
**2** decimal places and its `review_count` equals the number of reviews,
while `get_reviews` reports the full list, its exact length, and the mean
rounded to **1** decimal place. -/
theorem review_aggregates_consistent (st : StoreState) (p g c t : String)
    (rt : Int) (meta : GameMeta) (hist : List String)
    (hg : g ≠ "") (hr : 1 ≤ rt ∧ rt ≤ 5)
    (hmeta : dictGet st.games g = some meta) (hact : meta.status = "active")
    (hp : dictGet st.players p = some hist) (hdl : g ∈ hist) :
    (dictGet (submitReview st p g (some rt) c t).1.games g).map
      GameMeta.averageRating =
      some (roundTo 2 (meanRating
        ((dictGet (submitReview st p g (some rt) c t).1.reviews g).getD []))) ∧
    (dictGet (submitReview st p g (some rt) c t).1.games g).map
      GameMeta.reviewCount =
      some ((dictGet (submitReview st p g (some rt) c t).1.reviews
        g).getD []).length ∧
    getReviews (submitReview st p g (some rt) c t).1 g =
      GetReviewsResult.ok
        ((dictGet (submitReview st p g (some rt) c t).1.reviews g).getD [])
        ((dictGet (submitReview st p g (some rt) c t).1.reviews g).getD
          []).length
        (roundTo 1 (meanRating
          ((dictGet (submitReview st p g (some rt) c t).1.reviews
            g).getD []))) := by
  have h1 := submitReview_ok st p g c t rt meta hist hg hr hmeta hact hp hdl
  have hst1 : (submitReview st p g (some rt) c t).1 =
      { st with
          reviews := dictSet st.reviews g
            (upsertReview ((dictGet st.reviews g).getD []) (mkReview p rt c t))
          games := dictSet st.games g
            { meta with
                averageRating := roundTo 2 (meanRating
                  (upsertReview ((dictGet st.reviews g).getD [])
                    (mkReview p rt c t)))
                reviewCount := (upsertReview ((dictGet st.reviews g).getD [])
                  (mkReview p rt c t)).length } } := by
    rw [h1]
  rw [hst1]
  refine ⟨?_, ?_, ?_⟩ <;>
    simp [dictGet_dictSet_self, getReviews, hg]

theorem review_aggregates_consistent_witness :
    (dictGet (submitReview
      { games := [("g",
          { developer := "dev", gameType := "CLI", description := "",
            maxPlayers := 2, version := "1.0.0", createdAt := 0,
            updatedAt := 0, status := "active",
            config := { startCommand := "py x {host} {port}" },
            downloadCount := 1, averageRating := 0, reviewCount := 0 })]
        players := [("bob", ["g"])] }
      "bob" "g" (some 4) "nice" "t1").1.games "g").map
      GameMeta.averageRating =
      some (roundTo 2 (meanRating
        ((dictGet (submitReview
          { games := [("g",
              { developer := "dev", gameType := "CLI", description := "",
                maxPlayers := 2, version := "1.0.0", createdAt := 0,
                updatedAt := 0, status := "active",
                config := { startCommand := "py x {host} {port}" },
                downloadCount := 1, averageRating := 0, reviewCount := 0 })]
            players := [("bob", ["g"])] }
          "bob" "g" (some 4) "nice" "t1").1.reviews "g").getD []))) :=
  (review_aggregates_consistent
    { games := [("g",
        { developer := "dev", gameType := "CLI", description := "",
          maxPlayers := 2, version := "1.0.0", createdAt := 0,
          updatedAt := 0, status := "active",
          config := { startCommand := "py x {host} {port}" },
          downloadCount := 1, averageRating := 0, reviewCount := 0 })]
      players := [("bob", ["g"])] }
    "bob" "g" "nice" "t1" 4
    { developer := "dev", gameType := "CLI", description := "",
      maxPlayers := 2, version := "1.0.0", createdAt := 0,
      updatedAt := 0, status := "active",
      config := { startCommand := "py x {host} {port}" },
      downloadCount := 1, averageRating := 0, reviewCount := 0 }
    ["g"] (by decide) (by decide) rfl rfl rfl (by decide)).1
